import Mathlib

/-!
Shallow embedding of the Flappy Bird clone in this repository:
`src/main.py` (manual game loop) and `src/flappy_neat.py` (the NEAT
evaluation loop `eval_genomes`).

Pygame rendering, fonts and the event queue are external collaborators and
are not modelled.  Sprite geometry (image widths/heights), the per-pixel
mask collision test, the neural-network outputs and the random gap draws
are inputs of the embedded program and are modelled as explicit parameters
(`Params`) and oracles (`Oracles`).  Python numbers are modelled by `ℚ`
(every numeric constant in the source is a small decimal).
-/

namespace Flappy

/-- Window width (`WIN_WIDTH = 576`, identical in both source files). -/
def WIN_WIDTH : ℚ := 576

/-- Agent state (`class Bird`).  The sprite list `IMGS`, the current frame
`img` and `img_count` are renderer-owned animation data; the sprite height
enters the game logic only through the boundary test, where it is the
parameter `birdH`.  The `alive` flag exists only in `flappy_neat.py`. -/
structure Bird where
  x : ℚ
  y : ℚ
  tick_count : ℕ
  vel : ℚ
  height : ℚ
  tilt : ℤ
  alive : Bool
deriving DecidableEq

/-- `Bird.MAX_ROTATION = 25`. -/
def MAX_ROTATION : ℤ := 25

/-- `Bird.ROT_VEL = 20`. -/
def ROT_VEL : ℤ := 20

/-- `Bird.__init__(x, y)`. -/
def Bird.init (x y : ℚ) : Bird :=
  { x := x, y := y, tick_count := 0, vel := 0, height := y, tilt := 0, alive := true }

/-- `Bird.jump`: velocity `-9.5`, tick counter reset, reference height recorded. -/
def Bird.jump (b : Bird) : Bird :=
  { b with vel := -9.5, tick_count := 0, height := b.y }

/-- Raw kinematic displacement `d = vel * tick_count + 0.5 * 3 * tick_count ** 2`. -/
def dispRaw (vel : ℚ) (t : ℕ) : ℚ := vel * (t : ℚ) + 0.5 * 3 * (t : ℚ) ^ 2

/-- The two adjustments applied to `d` in `Bird.move`:
`if d >= 16: d = 16` and then `if d < 0: d -= 2`. -/
def clampDisp (d : ℚ) : ℚ :=
  let d1 := if 16 ≤ d then 16 else d
  if d1 < 0 then d1 - 2 else d1

/-- Displacement the next call of `Bird.move` will add to `y`
(the counter is incremented before `d` is computed). -/
def Bird.moveDisp (b : Bird) : ℚ := clampDisp (dispRaw b.vel (b.tick_count + 1))

/-- `Bird.move`: increment the tick counter, add the clamped displacement to
`y`, and update the (purely visual) tilt angle. -/
def Bird.move (b : Bird) : Bird :=
  let d := b.moveDisp
  let y := b.y + d
  let t : ℤ :=
    if d < 0 ∨ y < b.height + 50 then
      (if b.tilt < MAX_ROTATION then MAX_ROTATION else b.tilt)
    else
      (if -90 < b.tilt then b.tilt - ROT_VEL else b.tilt)
  { b with tick_count := b.tick_count + 1, y := y, tilt := t }

/-- Bird state after a jump followed by `t` calls of `Bird.move`. -/
def postJump (b : Bird) (t : ℕ) : Bird := Bird.move^[t] b.jump

/-- Obstacle state (`class Pipe`).  The two sprites are renderer data;
the top sprite's height and width are the parameters `pipeTopH`, `pipeW`. -/
structure Pipe where
  x : ℚ
  height : ℤ
  top : ℚ
  bottom : ℚ
  passed : Bool
deriving DecidableEq

namespace Pipe

/-- `Pipe.GAP = 150`. -/
def GAP : ℚ := 150

/-- `Pipe.VEL = 5`. -/
def VEL : ℚ := 5

/-- `Pipe.set_height`: the gap-center `height` comes from
`random.randrange(50, 350)` and is passed in as `h`; `pipeTopH` is
`PIPE_TOP.get_height()`. -/
def set_height (pipeTopH : ℚ) (h : ℤ) (p : Pipe) : Pipe :=
  { p with height := h, top := (h : ℚ) - pipeTopH, bottom := (h : ℚ) + GAP }

/-- Contract of Python's `random.randrange(lo, hi)`: the draw is an integer
in `[lo, hi)`. -/
def randrange_mem (lo hi h : ℤ) : Prop := lo ≤ h ∧ h < hi

/-- `Pipe.__init__(x)`: position `x`, `passed = False`, then `set_height`. -/
def spawn (pipeTopH : ℚ) (h : ℤ) (x : ℚ) : Pipe :=
  set_height pipeTopH h { x := x, height := 0, top := 0, bottom := 0, passed := false }

/-- `Pipe.move`: scroll left by `VEL`. -/
def move (p : Pipe) : Pipe := { p with x := p.x - VEL }

end Pipe

/-- Ground scroller state (`class Base`); `y` is fixed, `x1`/`x2` scroll. -/
structure Base where
  y : ℚ
  x1 : ℚ
  x2 : ℚ
deriving DecidableEq

namespace Base

/-- `Base.VEL = 5`. -/
def VEL : ℚ := 5

/-- `Base.__init__(y)` with segment width `W = Base.WIDTH` (the ground
sprite's width, a parameter of the embedding). -/
def init (W : ℕ) (y : ℚ) : Base := { y := y, x1 := 0, x2 := (W : ℚ) }

/-- `Base.move`: both segments scroll left by `VEL`; a segment whose right
edge passes the left screen boundary is repositioned to the right edge of
the other segment (second test reads the possibly-updated `x1`, as in the
source). -/
def move (W : ℕ) (b : Base) : Base :=
  let x1 := b.x1 - VEL
  let x2 := b.x2 - VEL
  let x1 := if x1 + (W : ℚ) < 0 then x2 + (W : ℚ) else x1
  let x2 := if x2 + (W : ℚ) < 0 then x1 + (W : ℚ) else x2
  { y := b.y, x1 := x1, x2 := x2 }

end Base

/-- One genome slot of `eval_genomes`: the parallel lists `birds[i]` /
`ge[i].fitness` are modelled as one record per index. -/
structure Agent where
  bird : Bird
  fitness : ℚ
deriving DecidableEq

/-- Sprite geometry parameters (fixed for a whole run). -/
structure Params where
  pipeTopH : ℚ
  pipeW : ℕ
  birdH : ℚ
  baseW : ℕ

/-- External inputs: `net i v` is `nets[i].activate(v)[0]`, `collide p b`
is the pixel-mask test `p.collide(b)`, and `draw k` is the k-th
`random.randrange(50, 350)` result consumed by pipe spawns. -/
structure Oracles where
  net : ℕ → ℚ × ℚ × ℚ → ℚ
  collide : Pipe → Bird → Bool
  draw : ℕ → ℤ

/-- State of one generation of `eval_genomes` at a tick boundary.
`rand` counts the random draws consumed so far. -/
structure EvalState where
  agents : List Agent
  pipes : List Pipe
  base : Base
  score : ℕ
  rand : ℕ
deriving DecidableEq

/-- Default agent used by list lookups (`getD`/`headD`); its bird is dead,
so out-of-range reads never report a live agent. -/
def agent0 : Agent :=
  { bird := { x := 0, y := 0, tick_count := 0, vel := 0, height := 0, tilt := 0, alive := false },
    fitness := 0 }

/-- Default pipe used by list lookups. -/
def pipe0 : Pipe := { x := 0, height := 0, top := 0, bottom := 0, passed := false }

/-- `alive_birds = [b for b in birds if b.alive]`. -/
def aliveBirds (s : EvalState) : List Agent := s.agents.filter (fun a => a.bird.alive)

/-- Lead-obstacle index:
`pipe_ind = 1 if len(pipes) > 1 and alive_birds[0].x > pipes[0].x + width else 0`. -/
def pipeIndex (P : Params) (s : EvalState) : ℕ :=
  if 1 < s.pipes.length ∧
      (s.pipes.headD pipe0).x + (P.pipeW : ℚ) < ((aliveBirds s).headD agent0).bird.x
  then 1 else 0

/-- The observed pipe `pipes[pipe_ind]`. -/
def obsOf (P : Params) (s : EvalState) : Pipe := s.pipes.getD (pipeIndex P s) pipe0

/-- Body of the per-bird loop for one (alive) bird `i`: move, survival
bonus `+0.1`, observe distances to the lead pipe's gap edges, jump when the
network output exceeds `0.5`.  Dead birds are skipped (`continue`). -/
def tickBird (o : Oracles) (obs : Pipe) (i : ℕ) (a : Agent) : Agent :=
  if a.bird.alive then
    let b := a.bird.move
    let top_dist := |b.y - (obs.height : ℚ)|
    let bottom_dist := |b.y - ((obs.height : ℚ) + Pipe.GAP)|
    let b2 := if 0.5 < o.net i (b.y, top_dist, bottom_dist) then b.jump else b
    { bird := b2, fitness := a.fitness + 0.1 }
  else a

/-- The whole `for i, bird in enumerate(birds)` loop, keeping the running
index for the network lookup. -/
def movePhase (o : Oracles) (obs : Pipe) : ℕ → List Agent → List Agent
  | _, [] => []
  | i, a :: rest => tickBird o obs i a :: movePhase o obs (i + 1) rest

/-- Collision handling of one (already moved) pipe against one bird:
`if bird.alive and pipe.collide(bird): bird.alive = False; ge[i].fitness -= 1`. -/
def collideUpd (o : Oracles) (pm : Pipe) (a : Agent) : Agent :=
  if a.bird.alive ∧ o.collide pm a.bird then
    { bird := { a.bird with alive := false }, fitness := a.fitness - 1 }
  else a

/-- `birds[0].x` (the reference agent; `x` is never written, but we read it
from the current list exactly as the source does). -/
def headX (l : List Agent) : ℚ := ((l.headD agent0).bird).x

/-- Body of the `for pipe in pipes` loop: move the pipe, apply collisions
to every bird, then mark the pipe passed (setting `add_pipe`) when the
reference agent's `x` strictly exceeds the pipe's.  The accumulator carries
the processed pipes, the bird/genome slots and the `add_pipe` flag. -/
def pipeStep (o : Oracles) (acc : List Pipe × List Agent × Bool) (p : Pipe) :
    List Pipe × List Agent × Bool :=
  match acc with
  | (ps, as, ap) =>
    let pm := p.move
    let as2 := as.map (collideUpd o pm)
    if pm.passed = false ∧ pm.x < headX as2 then
      (ps ++ [{ pm with passed := true }], as2, true)
    else
      (ps ++ [pm], as2, ap)

/-- Move phase followed by the pipe loop. -/
def stepParts (P : Params) (o : Oracles) (s : EvalState) : List Pipe × List Agent × Bool :=
  s.pipes.foldl (pipeStep o) ([], movePhase o (obsOf P s) 0 s.agents, false)

/-- The `add_pipe` flag of this tick. -/
def addPipeFlag (P : Params) (o : Oracles) (s : EvalState) : Bool := (stepParts P o s).2.2

/-- `if add_pipe: for genome in ge: genome.fitness += 5` — note the bonus
goes to every genome in `ge`, with no aliveness test. -/
def gBonus (f : Bool) (a : Agent) : Agent :=
  if f then { bird := a.bird, fitness := a.fitness + 5 } else a

/-- Genome slots after the pass bonus. -/
def postBonus (P : Params) (o : Oracles) (s : EvalState) : List Agent :=
  ((stepParts P o s).2.1).map (gBonus (addPipeFlag P o s))

/-- Boundary death:
`if bird.alive and (bird.y + bird.img.get_height() >= base.y or bird.y < 0)`. -/
def boundaryUpd (baseY birdH : ℚ) (a : Agent) : Agent :=
  if a.bird.alive ∧ (baseY ≤ a.bird.y + birdH ∨ a.bird.y < 0) then
    { bird := { a.bird with alive := false }, fitness := a.fitness - 1 }
  else a

/-- Spawn position of a new pipe: `Pipe(WIN_WIDTH + 100)`. -/
def newPipeX : ℚ := WIN_WIDTH + 100

/-- Off-screen removal test.  The source collects `rem = [p | p.x + width < 0]`
during the pipe loop and removes those pipes after the optional append; the
appended pipe sits at `x = 676` and never meets the condition, so the
removal pass is exactly this filter. -/
def keepPipe (P : Params) (p : Pipe) : Bool := !(decide (p.x + (P.pipeW : ℚ) < 0))

/-- One full iteration of the `while run_simulation` body of `eval_genomes`
(after the alive check): bird moves and decisions, pipe loop with
collisions and pass detection, score/bonus/spawn, off-screen removal,
boundary deaths, ground scroll. -/
def step (P : Params) (o : Oracles) (s : EvalState) : EvalState :=
  let ap := addPipeFlag P o s
  let pipes1 := (stepParts P o s).1
  let pipes2 := if ap then pipes1 ++ [Pipe.spawn P.pipeTopH (o.draw s.rand) newPipeX] else pipes1
  { agents := (postBonus P o s).map (boundaryUpd s.base.y P.birdH)
    pipes := pipes2.filter (keepPipe P)
    base := Base.move P.baseW s.base
    score := if ap then s.score + 1 else s.score
    rand := if ap then s.rand + 1 else s.rand }

/-- State after `n` iterations of the evaluation loop; the loop body runs
only while some bird is alive (`if alive_count == 0: break`). -/
def runFor (P : Params) (o : Oracles) (s0 : EvalState) : ℕ → EvalState
  | 0 => s0
  | n + 1 =>
    let s := runFor P o s0 n
    if (aliveBirds s).length = 0 then s else step P o s

/-- Entry state of `eval_genomes` for `g` genomes: every fitness is set to
`0`, one bird `Bird(230, 350)` per genome, `pipes = [Pipe(700)]`,
`base = Base(730)`, `score = 0`. -/
def initState (P : Params) (o : Oracles) (g : ℕ) : EvalState :=
  { agents := List.replicate g { bird := Bird.init 230 350, fitness := 0 }
    pipes := [Pipe.spawn P.pipeTopH (o.draw 0) 700]
    base := Base.init P.baseW 730
    score := 0
    rand := 1 }

/-- Fitness of genome `i`. -/
def fit (s : EvalState) (i : ℕ) : ℚ := (s.agents.getD i agent0).fitness

/-- Alive flag of bird `i`. -/
def aliveA (s : EvalState) (i : ℕ) : Bool := (s.agents.getD i agent0).bird.alive

/-- The reference agent's x position, `birds[0].x`. -/
def refX (s : EvalState) : ℚ := headX s.agents

/-- Does (already moved copies of) pipe `p` trigger the pass test this
tick, for reference x `r`?  This is the `add_pipe` condition of one pipe. -/
def crossB (r : ℚ) (p : Pipe) : Bool := decide ((p.move).passed = false ∧ (p.move).x < r)

/-- Effect of the whole pipe loop on one genome slot. -/
def collChain (o : Oracles) (L : List Pipe) (a : Agent) : Agent :=
  L.foldl (fun a p => collideUpd o p.move a) a

/-- Effect of the whole pipe loop on one pipe, for reference x `r`. -/
def procPipe (r : ℚ) (p : Pipe) : Pipe :=
  let pm := p.move
  if pm.passed = false ∧ pm.x < r then { pm with passed := true } else pm

/-- Genome `i` reaches the boundary test of tick `k` alive and dies there:
the loop body runs at tick `k` (someone is alive), agent `i` is still alive
after the move/pipe/bonus phases, and the boundary condition fires. -/
def boundaryDeathAt (P : Params) (o : Oracles) (s0 : EvalState) (k i : ℕ) : Prop :=
  0 < k ∧
  (aliveBirds (runFor P o s0 (k - 1))).length ≠ 0 ∧
  ((postBonus P o (runFor P o s0 (k - 1))).getD i agent0).bird.alive = true ∧
  ((runFor P o s0 (k - 1)).base.y ≤
      ((postBonus P o (runFor P o s0 (k - 1))).getD i agent0).bird.y + P.birdH ∨
    ((postBonus P o (runFor P o s0 (k - 1))).getD i agent0).bird.y < 0)

/-- State of the manual game loop (`main()` in `src/main.py`) at a tick
boundary. -/
structure MainState where
  bird : Bird
  pipes : List Pipe
  base : Base
  score : ℕ
  running : Bool
  rand : ℕ
deriving DecidableEq

/-- Body of the manual-mode `for p in pipes` loop: move, collision (which
only clears the `run` flag), pass detection `p.x < bird.x`. -/
def mainPipeStep (oc : Pipe → Bird → Bool) (b : Bird) (acc : List Pipe × Bool × Bool) (p : Pipe) :
    List Pipe × Bool × Bool :=
  match acc with
  | (ps, run, ap) =>
    let pm := p.move
    let run2 := if oc pm b then false else run
    if pm.passed = false ∧ pm.x < b.x then
      (ps ++ [{ pm with passed := true }], run2, true)
    else
      (ps ++ [pm], run2, ap)

/-- One iteration of the manual game loop: optional jump from the event
queue (`jp`), bird move, pipe loop, score/spawn, off-screen removal,
boundary check, ground scroll. -/
def mainStep (P : Params) (o : Oracles) (jp : Bool) (s : MainState) : MainState :=
  let b := (if jp then s.bird.jump else s.bird).move
  let parts := s.pipes.foldl (mainPipeStep o.collide b) ([], s.running, false)
  let ap := parts.2.2
  let pipes2 := if ap then parts.1 ++ [Pipe.spawn P.pipeTopH (o.draw s.rand) newPipeX] else parts.1
  { bird := b
    pipes := pipes2.filter (keepPipe P)
    base := Base.move P.baseW s.base
    score := if ap then s.score + 1 else s.score
    running := if s.base.y ≤ b.y + P.birdH ∨ b.y < 0 then false else parts.2.1
    rand := if ap then s.rand + 1 else s.rand }

/-! Concrete scenario parameters used as test vectors: the classic assets
give a doubled pipe sprite of height 640 and width ~100, a bird sprite of
height ~60 and a ground sprite of width ~336.  Only `birdH` influences the
scenarios below (through the ground line at `y = 730`). -/

/-- Concrete sprite geometry for the executable scenarios. -/
def P0 : Params := { pipeTopH := 640, pipeW := 100, birdH := 60, baseW := 336 }

/-- Oracle vector: genome 0 jumps whenever its bird sits below `y = 340`
is false (output 1 when `340 < y`), genome 1 never jumps, no pixel overlap
ever, every gap draw is 200. -/
def O0 : Oracles :=
  { net := fun i v => if i = 0 ∧ 340 < v.1 then 1 else 0
    collide := fun _ _ => false
    draw := fun _ => 200 }

/-- Oracle vector where no genome ever jumps. -/
def O1 : Oracles := { net := fun _ _ => 0, collide := fun _ _ => false, draw := fun _ => 200 }

/-- A dead bird parked at the start position. -/
def deadBird : Bird :=
  { x := 230, y := 350, tick_count := 0, vel := 0, height := 350, tilt := 0, alive := false }

/-- A state with one dead genome and an unpassed pipe about to be crossed
(the pipe moves to `x = 227 < 230` this tick). -/
def sW : EvalState :=
  { agents := [{ bird := deadBird, fitness := 0 }]
    pipes := [Pipe.spawn 640 200 232]
    base := Base.init 336 730
    score := 3
    rand := 1 }

/-- Sprite geometry with a very tall bird sprite: the ground line at
`y = 730` is then reached in 3 ticks from the start position, giving a
small concrete boundary-death scenario. -/
def P2 : Params := { pipeTopH := 640, pipeW := 100, birdH := 370, baseW := 336 }

/-- Pipe-list invariant carried by the evaluation loop: some pipe is still
unpassed, and every bird sits at `x = 230`. -/
def goodState (s : EvalState) : Prop :=
  (∃ p ∈ s.pipes, p.passed = false) ∧ ∀ a ∈ s.agents, a.bird.x = 230

/-! ### Small list lemmas -/

theorem getD_map_of_lt {α β : Type _} (f : α → β) (d : α) (e : β) :
    ∀ (l : List α) (i : ℕ), i < l.length → (l.map f).getD i e = f (l.getD i d) := by
  intro l
  induction l with
  | nil => intro i h; simp at h
  | cons a t ih =>
    intro i h
    cases i with
    | zero => simp
    | succ j =>
      simp only [List.map_cons, List.getD_cons_succ]
      exact ih j (by simpa using h)

theorem getD_of_le {α : Type _} (d : α) :
    ∀ (l : List α) (i : ℕ), l.length ≤ i → l.getD i d = d := by
  intro l
  induction l with
  | nil => intro i _; simp [List.getD]
  | cons a t ih =>
    intro i h
    cases i with
    | zero => simp at h
    | succ j => simpa using ih j (by simpa using h)

theorem getD_mem {α : Type _} (d : α) :
    ∀ (l : List α) (i : ℕ), i < l.length → l.getD i d ∈ l := by
  intro l
  induction l with
  | nil => intro i h; simp at h
  | cons a t ih =>
    intro i h
    cases i with
    | zero => simp
    | succ j => simpa using Or.inr (ih j (by simpa using h))

theorem getD_replicate {α : Type _} (a d : α) :
    ∀ (g i : ℕ), i < g → (List.replicate g a).getD i d = a := by
  intro g
  induction g with
  | zero => intro i h; simp at h
  | succ m ih =>
    intro i h
    cases i with
    | zero => simp [List.replicate]
    | succ j => simpa [List.replicate] using ih j (by omega)

/-! ### Bird-level lemmas -/

theorem Bird.move_x (b : Bird) : (b.move).x = b.x := rfl

theorem Bird.move_vel (b : Bird) : (b.move).vel = b.vel := rfl

theorem Bird.move_alive (b : Bird) : (b.move).alive = b.alive := rfl

theorem Bird.move_tick (b : Bird) : (b.move).tick_count = b.tick_count + 1 := rfl

theorem Bird.jump_x (b : Bird) : (b.jump).x = b.x := rfl

theorem Bird.jump_alive (b : Bird) : (b.jump).alive = b.alive := rfl

theorem postJump_vel_tick (b : Bird) : ∀ t : ℕ, (postJump b t).vel = -9.5 ∧ (postJump b t).tick_count = t := by
  intro t
  induction t with
  | zero => exact ⟨rfl, rfl⟩
  | succ m ih =>
    unfold postJump at ih ⊢
    rw [Function.iterate_succ_apply']
    exact ⟨ih.1, by rw [Bird.move_tick, ih.2]⟩

theorem postJump_moveDisp (b : Bird) (t : ℕ) :
    (postJump b t).moveDisp = clampDisp (dispRaw (-9.5) (t + 1)) := by
  unfold Bird.moveDisp
  rw [(postJump_vel_tick b t).1, (postJump_vel_tick b t).2]

theorem clampDisp_le_16 (d : ℚ) : clampDisp d ≤ 16 := by
  simp only [clampDisp]
  split_ifs <;> linarith

theorem clampDisp_neg_small (k : ℕ) (h1 : 1 ≤ k) (h6 : k ≤ 6) :
    clampDisp (dispRaw (-9.5) k) < 0 := by
  interval_cases k <;> norm_num [clampDisp, dispRaw]

theorem clampDisp_seven : clampDisp (dispRaw (-9.5) 7) = 7 := by
  norm_num [clampDisp, dispRaw]

theorem clampDisp_large (k : ℕ) (h : 8 ≤ k) : clampDisp (dispRaw (-9.5) k) = 16 := by
  have hk : (8 : ℚ) ≤ (k : ℚ) := by exact_mod_cast h
  have hr : (16 : ℚ) ≤ dispRaw (-9.5) k := by
    unfold dispRaw
    nlinarith [sq_nonneg ((k : ℚ) - 8)]
  unfold clampDisp
  simp only [if_pos hr]
  norm_num

/-! ### Agent/pipe phase lemmas -/

theorem tickBird_x (o : Oracles) (obs : Pipe) (i : ℕ) (a : Agent) :
    (tickBird o obs i a).bird.x = a.bird.x := by
  simp only [tickBird]
  split
  · split <;> rfl
  · rfl

theorem tickBird_dead (o : Oracles) (obs : Pipe) (i : ℕ) (a : Agent)
    (h : a.bird.alive = false) : tickBird o obs i a = a := by
  simp only [tickBird, h]
  rfl

theorem tickBird_alive (o : Oracles) (obs : Pipe) (i : ℕ) (a : Agent)
    (h : a.bird.alive = true) :
    (tickBird o obs i a).fitness = a.fitness + 0.1 ∧
    (tickBird o obs i a).bird.alive = true := by
  simp only [tickBird, h, if_true]
  constructor
  · trivial
  · split
    · rw [Bird.jump_alive, Bird.move_alive]; exact h
    · rw [Bird.move_alive]; exact h

theorem collideUpd_x (o : Oracles) (pm : Pipe) (a : Agent) :
    (collideUpd o pm a).bird.x = a.bird.x := by
  unfold collideUpd
  split <;> rfl

theorem collideUpd_dead (o : Oracles) (pm : Pipe) (a : Agent)
    (h : a.bird.alive = false) : collideUpd o pm a = a := by
  unfold collideUpd
  simp [h]

theorem headX_map_of_x_pres (f : Agent → Agent) (hf : ∀ a, (f a).bird.x = a.bird.x) :
    ∀ as : List Agent, headX (as.map f) = headX as := by
  intro as
  cases as with
  | nil => rfl
  | cons a t => simp [headX, hf]

theorem collChain_cons (o : Oracles) (p : Pipe) (L : List Pipe) (a : Agent) :
    collChain o (p :: L) a = collChain o L (collideUpd o p.move a) := rfl

theorem collChain_dead (o : Oracles) (a : Agent) (h : a.bird.alive = false) :
    ∀ L : List Pipe, collChain o L a = a := by
  intro L
  induction L with
  | nil => rfl
  | cons p t ih => rw [collChain_cons, collideUpd_dead o p.move a h]; exact ih

theorem collChain_cases (o : Oracles) :
    ∀ (L : List Pipe) (a : Agent), a.bird.alive = true →
      collChain o L a = a ∨
      collChain o L a = { bird := { a.bird with alive := false }, fitness := a.fitness - 1 } := by
  intro L
  induction L with
  | nil => intro a _; left; rfl
  | cons p t ih =>
    intro a ha
    rw [collChain_cons]
    by_cases hc : o.collide p.move a.bird
    · right
      have hk : collideUpd o p.move a =
          { bird := { a.bird with alive := false }, fitness := a.fitness - 1 } := by
        unfold collideUpd
        simp [ha, hc]
      rw [hk, collChain_dead o _ rfl]
    · have hk : collideUpd o p.move a = a := by
        unfold collideUpd
        simp [hc]
      rw [hk]
      exact ih a ha

theorem foldl_pipeStep (o : Oracles) :
    ∀ (L : List Pipe) (ps : List Pipe) (as : List Agent) (ap : Bool),
      L.foldl (pipeStep o) (ps, as, ap) =
        (ps ++ L.map (procPipe (headX as)), as.map (collChain o L),
          ap || L.any (crossB (headX as))) := by
  intro L
  induction L with
  | nil =>
    intro ps as ap
    simp only [List.foldl_nil, List.map_nil, List.append_nil, List.any_nil, Bool.or_false]
    have : as.map (collChain o []) = as := by
      have : collChain o [] = fun a => a := rfl
      rw [this, List.map_id']
    rw [this]
  | cons p L ih =>
    intro ps as ap
    rw [List.foldl_cons]
    have hx : headX (as.map (collideUpd o p.move)) = headX as :=
      headX_map_of_x_pres _ (collideUpd_x o p.move) as
    have hcc : (collChain o L) ∘ (collideUpd o p.move) = collChain o (p :: L) := rfl
    by_cases hc : (p.move).passed = false ∧ (p.move).x < headX (as.map (collideUpd o p.move))
    · have hstep : pipeStep o (ps, as, ap) p =
          (ps ++ [{ p.move with passed := true }], as.map (collideUpd o p.move), true) := by
        simp only [pipeStep]
        rw [if_pos hc]
      rw [hstep, ih, hx]
      have hcr : crossB (headX as) p = true := by
        unfold crossB
        rw [hx] at hc
        simp [hc.1, hc.2]
      have hpp : procPipe (headX as) p = { p.move with passed := true } := by
        unfold procPipe
        rw [hx] at hc
        simp [hc.1, hc.2]
      rw [List.map_cons, hpp, List.map_map, hcc, List.any_cons, hcr]
      simp only [Bool.true_or, Bool.or_true, List.append_assoc, List.singleton_append]
    · have hstep : pipeStep o (ps, as, ap) p =
          (ps ++ [p.move], as.map (collideUpd o p.move), ap) := by
        simp only [pipeStep]
        rw [if_neg hc]
      rw [hstep, ih, hx]
      have hcr : crossB (headX as) p = false := by
        unfold crossB
        rw [hx] at hc
        simpa using hc
      have hpp : procPipe (headX as) p = p.move := by
        unfold procPipe
        rw [hx] at hc
        simp only [ite_eq_right_iff]
        intro h
        exact absurd h hc
      rw [List.map_cons, hpp, List.map_map, hcc, List.any_cons, hcr]
      simp only [Bool.false_or, List.append_assoc, List.singleton_append]

/-! ### Characterization of one evaluation-loop tick -/

theorem length_movePhase (o : Oracles) (obs : Pipe) :
    ∀ (l : List Agent) (j : ℕ), (movePhase o obs j l).length = l.length := by
  intro l
  induction l with
  | nil => intro j; rfl
  | cons a t ih => intro j; simp [movePhase, ih]

theorem headX_movePhase (o : Oracles) (obs : Pipe) (l : List Agent) (j : ℕ) :
    headX (movePhase o obs j l) = headX l := by
  cases l with
  | nil => rfl
  | cons a t => simp [movePhase, headX, List.headD_cons, tickBird_x]

theorem getD_movePhase (o : Oracles) (obs : Pipe) :
    ∀ (l : List Agent) (j i : ℕ), i < l.length →
      (movePhase o obs j l).getD i agent0 = tickBird o obs (j + i) (l.getD i agent0) := by
  intro l
  induction l with
  | nil => intro j i h; simp at h
  | cons a t ih =>
    intro j i h
    cases i with
    | zero => simp [movePhase]
    | succ k =>
      simp only [movePhase, List.getD_cons_succ]
      rw [ih (j + 1) k (by simpa using h)]
      congr 1
      omega

theorem stepParts_eq (P : Params) (o : Oracles) (s : EvalState) :
    stepParts P o s =
      (s.pipes.map (procPipe (refX s)),
        (movePhase o (obsOf P s) 0 s.agents).map (collChain o s.pipes),
        s.pipes.any (crossB (refX s))) := by
  unfold stepParts
  rw [foldl_pipeStep o s.pipes [] (movePhase o (obsOf P s) 0 s.agents) false]
  rw [headX_movePhase]
  simp only [List.nil_append, Bool.false_or, refX]

theorem addPipeFlag_eq (P : Params) (o : Oracles) (s : EvalState) :
    addPipeFlag P o s = s.pipes.any (crossB (refX s)) := by
  unfold addPipeFlag
  rw [stepParts_eq]

theorem stepParts_agents (P : Params) (o : Oracles) (s : EvalState) :
    (stepParts P o s).2.1 = (movePhase o (obsOf P s) 0 s.agents).map (collChain o s.pipes) := by
  rw [stepParts_eq]

theorem stepParts_pipes (P : Params) (o : Oracles) (s : EvalState) :
    (stepParts P o s).1 = s.pipes.map (procPipe (refX s)) := by
  rw [stepParts_eq]

theorem length_postBonus (P : Params) (o : Oracles) (s : EvalState) :
    (postBonus P o s).length = s.agents.length := by
  unfold postBonus
  rw [List.length_map, stepParts_agents, List.length_map, length_movePhase]

theorem step_agents (P : Params) (o : Oracles) (s : EvalState) :
    (step P o s).agents = (postBonus P o s).map (boundaryUpd s.base.y P.birdH) := rfl

theorem step_score (P : Params) (o : Oracles) (s : EvalState) :
    (step P o s).score = if addPipeFlag P o s then s.score + 1 else s.score := rfl

theorem step_base (P : Params) (o : Oracles) (s : EvalState) :
    (step P o s).base = Base.move P.baseW s.base := rfl

theorem step_pipes (P : Params) (o : Oracles) (s : EvalState) :
    (step P o s).pipes =
      (if addPipeFlag P o s then
          (stepParts P o s).1 ++ [Pipe.spawn P.pipeTopH (o.draw s.rand) newPipeX]
        else (stepParts P o s).1).filter (keepPipe P) := rfl

theorem step_agents_length (P : Params) (o : Oracles) (s : EvalState) :
    (step P o s).agents.length = s.agents.length := by
  rw [step_agents, List.length_map, length_postBonus]

theorem postBonus_getD (P : Params) (o : Oracles) (s : EvalState) (i : ℕ)
    (hi : i < s.agents.length) :
    (postBonus P o s).getD i agent0 =
      gBonus (addPipeFlag P o s)
        (collChain o s.pipes (tickBird o (obsOf P s) i (s.agents.getD i agent0))) := by
  unfold postBonus
  rw [stepParts_agents]
  rw [getD_map_of_lt (gBonus (addPipeFlag P o s)) agent0 agent0 _ i
      (by rw [List.length_map, length_movePhase]; exact hi)]
  rw [getD_map_of_lt (collChain o s.pipes) agent0 agent0 _ i
      (by rw [length_movePhase]; exact hi)]
  rw [getD_movePhase o _ s.agents 0 i hi]
  simp only [Nat.zero_add]

theorem step_getD_char (P : Params) (o : Oracles) (s : EvalState) (i : ℕ)
    (hi : i < s.agents.length) :
    (step P o s).agents.getD i agent0 =
      boundaryUpd s.base.y P.birdH
        (gBonus (addPipeFlag P o s)
          (collChain o s.pipes (tickBird o (obsOf P s) i (s.agents.getD i agent0)))) := by
  rw [step_agents]
  rw [getD_map_of_lt (boundaryUpd s.base.y P.birdH) agent0 agent0 _ i
      (by rw [length_postBonus]; exact hi)]
  rw [postBonus_getD P o s i hi]

theorem gBonus_eq (f : Bool) (a : Agent) :
    gBonus f a = { bird := a.bird, fitness := a.fitness + (if f then 5 else 0) } := by
  cases f <;> simp [gBonus]

theorem boundaryUpd_dead (y h : ℚ) (a : Agent) (hd : a.bird.alive = false) :
    boundaryUpd y h a = a := by
  unfold boundaryUpd
  simp [hd]

theorem boundaryUpd_kill (y h : ℚ) (a : Agent) (ha : a.bird.alive = true)
    (hc : y ≤ a.bird.y + h ∨ a.bird.y < 0) :
    boundaryUpd y h a = { bird := { a.bird with alive := false }, fitness := a.fitness - 1 } := by
  unfold boundaryUpd
  rw [if_pos ⟨by simp [ha], hc⟩]

theorem boundaryUpd_safe (y h : ℚ) (a : Agent) (hc : ¬(y ≤ a.bird.y + h ∨ a.bird.y < 0)) :
    boundaryUpd y h a = a := by
  unfold boundaryUpd
  rw [if_neg (by intro hand; exact hc hand.2)]

theorem boundaryUpd_lit_kill (y h : ℚ) (b : Bird) (f : ℚ) (hb : b.alive = true)
    (hc : y ≤ b.y + h ∨ b.y < 0) :
    boundaryUpd y h { bird := b, fitness := f } =
      { bird := { b with alive := false }, fitness := f - 1 } := by
  unfold boundaryUpd
  rw [if_pos ⟨by simpa using hb, hc⟩]

theorem boundaryUpd_lit_safe (y h : ℚ) (b : Bird) (f : ℚ)
    (hc : ¬(y ≤ b.y + h ∨ b.y < 0)) :
    boundaryUpd y h { bird := b, fitness := f } = { bird := b, fitness := f } := by
  unfold boundaryUpd
  rw [if_neg (fun hand => hc hand.2)]

theorem agent0_dead : agent0.bird.alive = false := rfl

theorem aliveA_step_mono (P : Params) (o : Oracles) (s : EvalState) (i : ℕ) :
    aliveA (step P o s) i = true → aliveA s i = true := by
  intro h
  by_cases hi : i < s.agents.length
  · by_contra hd
    have hd' : (s.agents.getD i agent0).bird.alive = false := by
      unfold aliveA at hd
      simpa using hd
    unfold aliveA at h
    rw [step_getD_char P o s i hi, tickBird_dead o _ i _ hd',
      collChain_dead o _ hd' s.pipes, gBonus_eq,
      boundaryUpd_dead _ _ _ (by simpa using hd')] at h
    simp only at h
    rw [hd'] at h
    exact Bool.false_ne_true h
  · unfold aliveA at h
    rw [getD_of_le agent0 _ i (by rw [step_agents_length]; omega)] at h
    exact absurd h (by rw [agent0_dead]; simp)

theorem step_dead_frozen (P : Params) (o : Oracles) (s : EvalState) (i : ℕ)
    (hi : i < s.agents.length) (hd : aliveA s i = false) :
    (step P o s).agents.getD i agent0 =
      { bird := (s.agents.getD i agent0).bird,
        fitness := (s.agents.getD i agent0).fitness +
          (if addPipeFlag P o s then 5 else 0) } := by
  have hd' : (s.agents.getD i agent0).bird.alive = false := by
    unfold aliveA at hd
    simpa using hd
  rw [step_getD_char P o s i hi, tickBird_dead o _ i _ hd',
    collChain_dead o _ hd' s.pipes, gBonus_eq,
    boundaryUpd_dead _ _ _ (by simpa using hd')]

theorem step_alive_fitness (P : Params) (o : Oracles) (s : EvalState) (i : ℕ)
    (hi : i < s.agents.length) (ha : aliveA s i = true) (ha' : aliveA (step P o s) i = true) :
    fit (step P o s) i = fit s i + 0.1 + (if addPipeFlag P o s then (5 : ℚ) else 0) := by
  have haa : (s.agents.getD i agent0).bird.alive = true := ha
  have ht := tickBird_alive o (obsOf P s) i _ haa
  set a1 := tickBird o (obsOf P s) i (s.agents.getD i agent0) with ha1
  rcases collChain_cases o s.pipes a1 ht.2 with hcc | hcc
  · by_cases hcond : s.base.y ≤ a1.bird.y + P.birdH ∨ a1.bird.y < 0
    · exfalso
      unfold aliveA at ha'
      rw [step_getD_char P o s i hi, ← ha1, hcc, gBonus_eq,
        boundaryUpd_lit_kill _ _ _ _ ht.2 hcond] at ha'
      simp at ha'
    · unfold fit
      rw [step_getD_char P o s i hi, ← ha1, hcc, gBonus_eq,
        boundaryUpd_lit_safe _ _ _ _ hcond]
      show a1.fitness + _ = _
      rw [ht.1]
  · exfalso
    unfold aliveA at ha'
    rw [step_getD_char P o s i hi, ← ha1, hcc, gBonus_eq,
      boundaryUpd_dead _ _ _ (by simp)] at ha'
    simp at ha'

theorem step_death_fitness (P : Params) (o : Oracles) (s : EvalState) (i : ℕ)
    (hi : i < s.agents.length) (ha : aliveA s i = true) (hd : aliveA (step P o s) i = false) :
    fit (step P o s) i = fit s i + 0.1 + (if addPipeFlag P o s then (5 : ℚ) else 0) - 1 := by
  have haa : (s.agents.getD i agent0).bird.alive = true := ha
  have ht := tickBird_alive o (obsOf P s) i _ haa
  set a1 := tickBird o (obsOf P s) i (s.agents.getD i agent0) with ha1
  rcases collChain_cases o s.pipes a1 ht.2 with hcc | hcc
  · by_cases hcond : s.base.y ≤ a1.bird.y + P.birdH ∨ a1.bird.y < 0
    · unfold fit
      rw [step_getD_char P o s i hi, ← ha1, hcc, gBonus_eq,
        boundaryUpd_lit_kill _ _ _ _ ht.2 hcond]
      show a1.fitness + _ - 1 = _
      rw [ht.1]
    · exfalso
      unfold aliveA at hd
      rw [step_getD_char P o s i hi, ← ha1, hcc, gBonus_eq,
        boundaryUpd_lit_safe _ _ _ _ hcond] at hd
      have hd2 : a1.bird.alive = false := hd
      rw [ht.2] at hd2
      simp at hd2
  · unfold fit
    rw [step_getD_char P o s i hi, ← ha1, hcc, gBonus_eq,
      boundaryUpd_dead _ _ _ (by simp)]
    show a1.fitness - 1 + _ = _
    rw [ht.1]
    ring

/-! ### Invariants over whole runs -/

theorem runFor_agents_length (P : Params) (o : Oracles) (g n : ℕ) :
    (runFor P o (initState P o g) n).agents.length = g := by
  induction n with
  | zero => simp [runFor, initState]
  | succ m ih =>
    rw [runFor]
    split
    · exact ih
    · rw [step_agents_length]; exact ih

theorem aliveBirds_ne_of_alive (s : EvalState) (i : ℕ) (hi : i < s.agents.length)
    (h : aliveA s i = true) : (aliveBirds s).length ≠ 0 := by
  have hmem : s.agents.getD i agent0 ∈ s.agents := getD_mem agent0 s.agents i hi
  have hmf : s.agents.getD i agent0 ∈ aliveBirds s :=
    List.mem_filter.2 ⟨hmem, by simpa [aliveA] using h⟩
  intro h0
  rw [List.length_eq_zero] at h0
  rw [h0] at hmf
  exact List.not_mem_nil _ hmf

theorem fitness_alive_invariant (P : Params) (o : Oracles) (g : ℕ) :
    ∀ (n i : ℕ), i < g → aliveA (runFor P o (initState P o g) n) i = true →
      fit (runFor P o (initState P o g) n) i =
        (n : ℚ) * 0.1 + 5 * ((runFor P o (initState P o g) n).score : ℚ) := by
  intro n
  induction n with
  | zero =>
    intro i hi _
    have : fit (initState P o g) i = 0 := by
      unfold fit initState
      simp only
      rw [getD_replicate _ agent0 g i hi]
    rw [runFor] at *
    rw [this]
    norm_num [initState]
  | succ m ih =>
    intro i hi ha'
    rw [runFor] at ha' ⊢
    by_cases hz : (aliveBirds (runFor P o (initState P o g) m)).length = 0
    · rw [if_pos hz] at ha' ⊢
      exact absurd hz (aliveBirds_ne_of_alive _ i (by rw [runFor_agents_length]; exact hi) ha')
    · rw [if_neg hz] at ha' ⊢
      have ha : aliveA (runFor P o (initState P o g) m) i = true :=
        aliveA_step_mono P o _ i ha'
      have hfit := ih i hi ha
      rw [step_alive_fitness P o _ i (by rw [runFor_agents_length]; exact hi) ha ha', hfit,
        step_score]
      by_cases hap : addPipeFlag P o (runFor P o (initState P o g) m) = true <;>
        simp only [hap, if_true, if_false, Bool.false_eq_true] <;> push_cast <;> ring

theorem dead_propagate (P : Params) (o : Oracles) (g i : ℕ) (hi : i < g) :
    ∀ n m : ℕ, n ≤ m →
      aliveA (runFor P o (initState P o g) n) i = false →
      aliveA (runFor P o (initState P o g) m) i = false ∧
      fit (runFor P o (initState P o g) m) i -
          5 * ((runFor P o (initState P o g) m).score : ℚ) =
        fit (runFor P o (initState P o g) n) i -
          5 * ((runFor P o (initState P o g) n).score : ℚ) := by
  intro n m hnm
  induction m, hnm using Nat.le_induction with
  | base => intro hd; exact ⟨hd, rfl⟩
  | succ m hm ih =>
    intro hd
    obtain ⟨hdm, hfm⟩ := ih hd
    rw [runFor]
    by_cases hz : (aliveBirds (runFor P o (initState P o g) m)).length = 0
    · rw [if_pos hz]; exact ⟨hdm, hfm⟩
    · rw [if_neg hz]
      have hlen : i < (runFor P o (initState P o g) m).agents.length := by
        rw [runFor_agents_length]; exact hi
      have hfrozen := step_dead_frozen P o _ i hlen hdm
      have hdm' : ((runFor P o (initState P o g) m).agents.getD i agent0).bird.alive = false := by
        simpa [aliveA] using hdm
      constructor
      · unfold aliveA
        rw [hfrozen]
        exact hdm'
      · have hfi : fit (step P o (runFor P o (initState P o g) m)) i =
            fit (runFor P o (initState P o g) m) i +
              (if addPipeFlag P o (runFor P o (initState P o g) m) then (5 : ℚ) else 0) := by
          unfold fit
          rw [hfrozen]
        rw [hfi, step_score]
        by_cases hap : addPipeFlag P o (runFor P o (initState P o g) m) = true <;>
          simp only [hap, if_true, if_false, Bool.false_eq_true] <;> push_cast <;>
          linarith [hfm]

theorem death_tick (P : Params) (o : Oracles) (g k i : ℕ) (hi : i < g)
    (hb : boundaryDeathAt P o (initState P o g) k i) :
    aliveA (runFor P o (initState P o g) k) i = false ∧
    fit (runFor P o (initState P o g) k) i =
      (k : ℚ) * 0.1 + 5 * ((runFor P o (initState P o g) k).score : ℚ) - 1 := by
  obtain ⟨hk, hz, haliveB, hcond⟩ := hb
  have hstep : runFor P o (initState P o g) k = step P o (runFor P o (initState P o g) (k - 1)) := by
    conv_lhs => rw [show k = (k - 1) + 1 by omega]
    rw [runFor, if_neg hz]
  have hlen : i < (runFor P o (initState P o g) (k - 1)).agents.length := by
    rw [runFor_agents_length]; exact hi
  have hpb := postBonus_getD P o (runFor P o (initState P o g) (k - 1)) i hlen
  have ha : ((runFor P o (initState P o g) (k - 1)).agents.getD i agent0).bird.alive = true := by
    by_contra hna
    have hna' : ((runFor P o (initState P o g) (k - 1)).agents.getD i agent0).bird.alive = false := by
      simpa using hna
    rw [hpb, tickBird_dead o _ i _ hna', collChain_dead o _ hna', gBonus_eq] at haliveB
    have : ((runFor P o (initState P o g) (k - 1)).agents.getD i agent0).bird.alive = true :=
      haliveB
    rw [hna'] at this
    exact absurd this (by simp)
  have ht := tickBird_alive o (obsOf P (runFor P o (initState P o g) (k - 1))) i _ ha
  rcases collChain_cases o (runFor P o (initState P o g) (k - 1)).pipes
      (tickBird o (obsOf P (runFor P o (initState P o g) (k - 1))) i
        ((runFor P o (initState P o g) (k - 1)).agents.getD i agent0)) ht.2 with hcc | hcc
  · have hpb2 : (postBonus P o (runFor P o (initState P o g) (k - 1))).getD i agent0 =
        { bird := (tickBird o (obsOf P (runFor P o (initState P o g) (k - 1))) i
            ((runFor P o (initState P o g) (k - 1)).agents.getD i agent0)).bird,
          fitness := (tickBird o (obsOf P (runFor P o (initState P o g) (k - 1))) i
              ((runFor P o (initState P o g) (k - 1)).agents.getD i agent0)).fitness +
            (if addPipeFlag P o (runFor P o (initState P o g) (k - 1)) then (5 : ℚ) else 0) } := by
      rw [hpb, hcc, gBonus_eq]
    rw [hpb2] at hcond
    have hchar := step_getD_char P o (runFor P o (initState P o g) (k - 1)) i hlen
    rw [hcc, gBonus_eq, boundaryUpd_lit_kill _ _ _ _ ht.2 hcond] at hchar
    have hfs := fitness_alive_invariant P o g (k - 1) i hi ha
    constructor
    · unfold aliveA
      rw [hstep, hchar]
    · unfold fit
      rw [hstep, hchar]
      show (tickBird _ _ i _).fitness + _ - 1 = _
      rw [ht.1]
      unfold fit at hfs
      rw [hfs, step_score]
      have hcast : (((k : ℕ) - 1 : ℕ) : ℚ) = (k : ℚ) - 1 := by
        have : 1 ≤ k := hk
        push_cast [this]
        ring
      by_cases hap : addPipeFlag P o (runFor P o (initState P o g) (k - 1)) = true <;>
        simp only [hap, if_true, if_false, Bool.false_eq_true] <;> rw [hcast] <;>
        push_cast <;> ring
  · exfalso
    rw [hpb, hcc, gBonus_eq] at haliveB
    exact absurd haliveB (by simp)

/-! ### Score law and pipe-list invariant -/

theorem mainPipeStep_flag (oc : Pipe → Bird → Bool) (b : Bird)
    (acc : List Pipe × Bool × Bool) (p : Pipe) :
    (mainPipeStep oc b acc p).2.2 = (acc.2.2 || crossB b.x p) := by
  match acc with
  | (ps, run, ap) =>
    by_cases hc : (p.move).passed = false ∧ (p.move).x < b.x
    · have hcr : crossB b.x p = true := by
        unfold crossB
        simp [hc.1, hc.2]
      simp only [mainPipeStep]
      rw [if_pos hc, hcr, Bool.or_true]
    · have hcr : crossB b.x p = false := by
        unfold crossB
        simpa using hc
      simp only [mainPipeStep]
      rw [if_neg hc, hcr, Bool.or_false]

theorem foldl_mainPipeStep_flag (oc : Pipe → Bird → Bool) (b : Bird) :
    ∀ (L : List Pipe) (acc : List Pipe × Bool × Bool),
      (L.foldl (mainPipeStep oc b) acc).2.2 = (acc.2.2 || L.any (crossB b.x)) := by
  intro L
  induction L with
  | nil => intro acc; simp
  | cons p L ih =>
    intro acc
    rw [List.foldl_cons, ih, mainPipeStep_flag, List.any_cons, Bool.or_assoc]

theorem mainStep_bird_x (jp : Bool) (s : MainState) :
    ((if jp then s.bird.jump else s.bird).move).x = s.bird.x := by
  cases jp <;> simp [Bird.move_x, Bird.jump_x]

theorem mainStep_score (P : Params) (o : Oracles) (jp : Bool) (s : MainState) :
    (mainStep P o jp s).score =
      s.score + (if s.pipes.any (crossB s.bird.x) then 1 else 0) := by
  have h1 : (mainStep P o jp s).score =
      if (s.pipes.foldl (mainPipeStep o.collide ((if jp then s.bird.jump else s.bird).move))
          ([], s.running, false)).2.2 then s.score + 1 else s.score := rfl
  rw [h1, foldl_mainPipeStep_flag, mainStep_bird_x]
  by_cases h : s.pipes.any (crossB s.bird.x) = true <;> simp [h]

theorem step_score_eq (P : Params) (o : Oracles) (s : EvalState) :
    (step P o s).score = s.score + (if s.pipes.any (crossB (refX s)) then 1 else 0) := by
  rw [step_score, addPipeFlag_eq]
  by_cases h : s.pipes.any (crossB (refX s)) = true <;> simp [h]

theorem runFor_score_mono (P : Params) (o : Oracles) (s0 : EvalState) :
    ∀ n m : ℕ, n ≤ m → (runFor P o s0 n).score ≤ (runFor P o s0 m).score := by
  intro n m hnm
  induction m, hnm using Nat.le_induction with
  | base => exact le_rfl
  | succ m hm ih =>
    refine le_trans ih ?_
    rw [runFor]
    split
    · exact le_rfl
    · rw [step_score]
      split <;> omega

theorem keepPipe_of_nonneg (P : Params) (p : Pipe) (h : 0 ≤ p.x) : keepPipe P p = true := by
  unfold keepPipe
  have hw : (0 : ℚ) ≤ (P.pipeW : ℚ) := by positivity
  simp only [Bool.not_eq_true', decide_eq_false_iff_not]
  intro hc
  linarith

theorem collChain_x (o : Oracles) :
    ∀ (L : List Pipe) (a : Agent), (collChain o L a).bird.x = a.bird.x := by
  intro L
  induction L with
  | nil => intro a; rfl
  | cons p t ih => intro a; rw [collChain_cons, ih, collideUpd_x]

theorem mem_movePhase (o : Oracles) (obs : Pipe) :
    ∀ (l : List Agent) (j : ℕ) (a : Agent), a ∈ movePhase o obs j l →
      ∃ a0 ∈ l, ∃ k, a = tickBird o obs k a0 := by
  intro l
  induction l with
  | nil => intro j a ha; simp [movePhase] at ha
  | cons b t ih =>
    intro j a ha
    simp only [movePhase, List.mem_cons] at ha
    rcases ha with ha | ha
    · exact ⟨b, by simp, j, ha⟩
    · obtain ⟨a0, h0, k, hk⟩ := ih (j + 1) a ha
      exact ⟨a0, by simp [h0], k, hk⟩

theorem step_x_pres (P : Params) (o : Oracles) (s : EvalState) (c : ℚ)
    (hx : ∀ a ∈ s.agents, a.bird.x = c) :
    ∀ a ∈ (step P o s).agents, a.bird.x = c := by
  intro a ha
  rw [step_agents] at ha
  obtain ⟨a1, ha1, rfl⟩ := List.mem_map.1 ha
  have hb : (boundaryUpd s.base.y P.birdH a1).bird.x = a1.bird.x := by
    unfold boundaryUpd
    split <;> rfl
  rw [hb]
  unfold postBonus at ha1
  obtain ⟨a2, ha2, rfl⟩ := List.mem_map.1 ha1
  have hg : (gBonus (addPipeFlag P o s) a2).bird.x = a2.bird.x := by
    rw [gBonus_eq]
  rw [hg]
  rw [stepParts_agents] at ha2
  obtain ⟨a3, ha3, rfl⟩ := List.mem_map.1 ha2
  rw [collChain_x]
  obtain ⟨a0, h0, k, hk⟩ := mem_movePhase o (obsOf P s) s.agents 0 a3 ha3
  rw [hk, tickBird_x]
  exact hx a0 h0

theorem goodState_init (P : Params) (o : Oracles) (g : ℕ) : goodState (initState P o g) := by
  constructor
  · exact ⟨Pipe.spawn P.pipeTopH (o.draw 0) 700, by simp [initState], rfl⟩
  · intro a ha
    have h2 : a = { bird := Bird.init 230 350, fitness := 0 } := List.eq_of_mem_replicate ha
    rw [h2]
    rfl

theorem goodState_step (P : Params) (o : Oracles) (s : EvalState)
    (hA : ¬(aliveBirds s).length = 0) (hg : goodState s) : goodState (step P o s) := by
  obtain ⟨⟨p0, hp0, hp0pass⟩, hx⟩ := hg
  have hagents_ne : s.agents ≠ [] := by
    intro he
    rw [aliveBirds, he] at hA
    simp at hA
  have hrefx : refX s = 230 := by
    unfold refX headX
    cases hsa : s.agents with
    | nil => exact absurd hsa hagents_ne
    | cons a t =>
      simp only [List.headD_cons]
      exact hx a (by rw [hsa]; simp)
  constructor
  · rw [step_pipes]
    by_cases hap : addPipeFlag P o s = true
    · rw [if_pos hap]
      refine ⟨Pipe.spawn P.pipeTopH (o.draw s.rand) newPipeX, ?_, rfl⟩
      apply List.mem_filter.2
      refine ⟨List.mem_append.2 (Or.inr (by simp)), ?_⟩
      apply keepPipe_of_nonneg
      norm_num [Pipe.spawn, Pipe.set_height, newPipeX, WIN_WIDTH]
    · have hap' : addPipeFlag P o s = false := by
        revert hap
        cases addPipeFlag P o s <;> simp
      rw [if_neg hap]
      have hflag : s.pipes.any (crossB (refX s)) = false := by
        rw [← addPipeFlag_eq]
        exact hap'
      have hcr : crossB (refX s) p0 = false := by
        by_contra hcr'
        have h1 : crossB (refX s) p0 = true := by
          revert hcr'
          cases crossB (refX s) p0 <;> simp
        have h2 : s.pipes.any (crossB (refX s)) = true :=
          List.any_eq_true.2 ⟨p0, hp0, h1⟩
        rw [h2] at hflag
        simp at hflag
      have hmp : (p0.move).passed = false := hp0pass
      have hge : refX s ≤ (p0.move).x := by
        unfold crossB at hcr
        rw [decide_eq_false_iff_not] at hcr
        by_contra hlt
        exact hcr ⟨hmp, by linarith [lt_of_not_le hlt]⟩
      have hpp : procPipe (refX s) p0 = p0.move := by
        unfold procPipe
        rw [if_neg (fun hand => absurd hand.2 (by simp only [not_lt]; exact hge))]
      rw [stepParts_pipes]
      refine ⟨procPipe (refX s) p0, ?_, ?_⟩
      · apply List.mem_filter.2
        refine ⟨List.mem_map.2 ⟨p0, hp0, rfl⟩, ?_⟩
        rw [hpp]
        apply keepPipe_of_nonneg
        rw [hrefx] at hge
        linarith
      · rw [hpp]
        exact hmp
  · exact step_x_pres P o s 230 hx

theorem goodState_runFor (P : Params) (o : Oracles) (g n : ℕ) :
    goodState (runFor P o (initState P o g) n) := by
  induction n with
  | zero => exact goodState_init P o g
  | succ m ih =>
    rw [runFor]
    split
    · exact ih
    · next h => exact goodState_step P o _ h ih

theorem base_move_pres (W : ℕ) (b : Base)
    (h : b.x2 - b.x1 = (W : ℚ) ∨ b.x1 - b.x2 = (W : ℚ)) :
    (Base.move W b).x2 - (Base.move W b).x1 = (W : ℚ) ∨
    (Base.move W b).x1 - (Base.move W b).x2 = (W : ℚ) := by
  simp only [Base.move]
  split_ifs
  · left; ring
  · left; ring
  · right; ring
  · rcases h with h | h
    · left; linarith
    · right; linarith

/-! ### Claim theorems -/

/-- C1: in `eval_genomes`, a genome whose agent never collides has, after
`n` ticks, fitness `0.1·n + 5·score` while still alive; and if it reaches
the boundary test of tick `k` alive and dies there (so it survived `k`
ticks, collecting `k` survival bonuses, and collected every one of the
`score` pass bonuses of the whole run), its fitness from tick `k` on is
`0.1·k + 5·score − 1`, the `−1` being applied exactly once at death. -/
theorem eval_fitness_totals (P : Params) (o : Oracles) (g n k i : ℕ) (hi : i < g) :
    (aliveA (runFor P o (initState P o g) n) i = true →
      fit (runFor P o (initState P o g) n) i =
        0.1 * (n : ℚ) + 5 * ((runFor P o (initState P o g) n).score : ℚ)) ∧
    (boundaryDeathAt P o (initState P o g) k i → k ≤ n →
      fit (runFor P o (initState P o g) n) i =
        0.1 * (k : ℚ) + 5 * ((runFor P o (initState P o g) n).score : ℚ) - 1) := by
  constructor
  · intro ha
    have h1 := fitness_alive_invariant P o g n i hi ha
    linarith
  · intro hb hkn
    obtain ⟨hdead, hfitk⟩ := death_tick P o g k i hi hb
    obtain ⟨_, hprop⟩ := dead_propagate P o g i hi k n hkn hdead
    linarith

/-- C2 (amended): when the pass flag of some pipe transitions this tick
(`add_pipe`), the score is incremented by one and every genome in `ge`
receives the `+5` bonus — including genomes whose agents are already dead
(the source iterates over all of `ge` with no aliveness test).  A genome
dead at tick start changes by exactly `+5`; a surviving genome by
`+0.1 + 5`; a genome dying this tick by `+0.1 + 5 − 1`. -/
theorem pass_bonus_all_genomes (P : Params) (o : Oracles) (s : EvalState) (i : ℕ)
    (hi : i < s.agents.length) (hf : addPipeFlag P o s = true) :
    (step P o s).score = s.score + 1 ∧
    (aliveA s i = false → fit (step P o s) i = fit s i + 5) ∧
    (aliveA (step P o s) i = true → fit (step P o s) i = fit s i + 0.1 + 5) ∧
    (aliveA s i = true → aliveA (step P o s) i = false →
      fit (step P o s) i = fit s i + 0.1 + 5 - 1) := by
  refine ⟨?_, ?_, ?_, ?_⟩
  · rw [step_score, if_pos hf]
  · intro hd
    unfold fit
    rw [step_dead_frozen P o s i hi hd, hf]
    norm_num
  · intro ha'
    have ha := aliveA_step_mono P o s i ha'
    rw [step_alive_fitness P o s i hi ha ha', hf]
    norm_num
  · intro ha hd
    rw [step_death_fitness P o s i hi ha hd, hf]
    norm_num

/-- C3 (amended): `set_height` stores the random draw (an integer in
`[50, 350)` by the `randrange(50, 350)` contract) as the gap-center; the
stored bottom extent is exactly gap-center + 150 (`GAP`), while the stored
top extent is gap-center − top-sprite-height, so the two stored extents are
separated by `150 + pipeTopH`, not by 150. -/
theorem set_height_spec (pipeTopH : ℚ) (h : ℤ) (x : ℚ)
    (hh : Pipe.randrange_mem 50 350 h) :
    (Pipe.spawn pipeTopH h x).height = h ∧
    50 ≤ (Pipe.spawn pipeTopH h x).height ∧ (Pipe.spawn pipeTopH h x).height < 350 ∧
    (Pipe.spawn pipeTopH h x).bottom = (h : ℚ) + 150 ∧
    (Pipe.spawn pipeTopH h x).bottom - (Pipe.spawn pipeTopH h x).top = 150 + pipeTopH := by
  obtain ⟨h1, h2⟩ := hh
  refine ⟨rfl, h1, h2, ?_, ?_⟩
  · show (h : ℚ) + Pipe.GAP = (h : ℚ) + 150
    norm_num [Pipe.GAP]
  · show ((h : ℚ) + Pipe.GAP) - ((h : ℚ) - pipeTopH) = 150 + pipeTopH
    norm_num [Pipe.GAP]

/-- C4: after a jump (velocity −9.5, gravity 3), the clamped per-tick
displacement used by `Bird.move` is non-decreasing from any tick where it
is already non-negative (past the upward phase), and never moves the agent
downward by more than 16 units. -/
theorem move_disp_clamped_mono :
    (∀ (b : Bird) (t u : ℕ), t ≤ u → 0 ≤ (postJump b t).moveDisp →
      (postJump b t).moveDisp ≤ (postJump b u).moveDisp) ∧
    (∀ (b : Bird) (t : ℕ), (postJump b t).moveDisp ≤ 16) := by
  constructor
  · intro b t u htu h0
    rw [postJump_moveDisp] at h0 ⊢
    rw [postJump_moveDisp]
    have h7 : 7 ≤ t + 1 := by
      by_contra hlt
      have h6 : t + 1 ≤ 6 := by omega
      have := clampDisp_neg_small (t + 1) (by omega) h6
      linarith
    rcases Nat.lt_or_ge t 7 with h | h
    · have ht6 : t = 6 := by omega
      subst ht6
      rw [show (6 : ℕ) + 1 = 7 from rfl, clampDisp_seven]
      rcases Nat.lt_or_ge u 7 with hu | hu
      · have hu6 : u = 6 := by omega
        subst hu6
        rw [show (6 : ℕ) + 1 = 7 from rfl, clampDisp_seven]
      · rw [clampDisp_large (u + 1) (by omega)]
        norm_num
    · rw [clampDisp_large (t + 1) (by omega), clampDisp_large (u + 1) (by omega)]
  · intro b t
    rw [postJump_moveDisp]
    exact clampDisp_le_16 _

/-- C5: the ground scroller's two segment offsets always differ by exactly
the segment width `W` (in one direction or the other, reflecting the
wraparound repositioning), at every tick starting from the initial state
`x1 = 0`, `x2 = W` — so the two segments always cover the ground with no
gap. -/
theorem base_offsets_invariant (W : ℕ) (y : ℚ) (n : ℕ) :
    ((Base.move W)^[n] (Base.init W y)).x2 - ((Base.move W)^[n] (Base.init W y)).x1 = (W : ℚ) ∨
    ((Base.move W)^[n] (Base.init W y)).x1 - ((Base.move W)^[n] (Base.init W y)).x2 = (W : ℚ) := by
  induction n with
  | zero => left; simp [Base.init]
  | succ m ih =>
    rw [Function.iterate_succ_apply']
    exact base_move_pres W _ ih

/-- C6: in one executed tick of either loop the score grows by exactly 1
when some (moved) unpassed pipe has its x strictly below the reference
agent's x — even when several pipes cross at once, since a single
`add_pipe` flag is used — and by 0 otherwise; the score never decreases
over a run. -/
theorem score_increment_rule (P : Params) (o : Oracles) :
    (∀ s : EvalState, (aliveBirds s).length ≠ 0 →
        (step P o s).score = s.score + (if s.pipes.any (crossB (refX s)) then 1 else 0)) ∧
    (∀ (s0 : EvalState) (n m : ℕ), n ≤ m →
        (runFor P o s0 n).score ≤ (runFor P o s0 m).score) ∧
    (∀ (jp : Bool) (s : MainState),
        (mainStep P o jp s).score = s.score + (if s.pipes.any (crossB s.bird.x) then 1 else 0) ∧
        s.score ≤ (mainStep P o jp s).score) := by
  refine ⟨fun s _ => step_score_eq P o s, runFor_score_mono P o,
    fun jp s => ⟨mainStep_score P o jp s, ?_⟩⟩
  rw [mainStep_score]
  split <;> omega

/-- C7: invoking the evaluation loop with zero genomes terminates on the
first tick: the state never changes (so no fitness value is touched — the
genome list is empty) and the embedding is total, so no error occurs. -/
theorem empty_generation_noop (P : Params) (o : Oracles) (n : ℕ) :
    runFor P o (initState P o 0) n = initState P o 0 ∧ (initState P o 0).agents = [] := by
  constructor
  · induction n with
    | zero => rfl
    | succ m ih =>
      rw [runFor, ih]
      rw [if_pos (show (aliveBirds (initState P o 0)).length = 0 from rfl)]
  · rfl

/-- C8: `Bird.move` increments the tick counter, adds to `y` the
displacement `vel·t + 0.5·3·t²` (with the incremented counter `t`),
replaced by 16 when it is ≥ 16 and decreased by an extra 2 when negative,
and leaves `x`, `vel`, `height` and `alive` unchanged. -/
theorem move_effects (b : Bird) :
    (Bird.move b).tick_count = b.tick_count + 1 ∧
    (Bird.move b).y = b.y +
      (let d := b.vel * ((b.tick_count + 1 : ℕ) : ℚ) +
        0.5 * 3 * ((b.tick_count + 1 : ℕ) : ℚ) ^ 2
       let d1 := if 16 ≤ d then 16 else d
       if d1 < 0 then d1 - 2 else d1) ∧
    (Bird.move b).x = b.x ∧ (Bird.move b).vel = b.vel ∧
    (Bird.move b).height = b.height ∧ (Bird.move b).alive = b.alive :=
  ⟨rfl, rfl, rfl, rfl, rfl, rfl⟩

/-- C9: within a generation the alive flag only goes from true to false
(per tick and across any number of ticks); and once an agent is dead its
whole bird state is left untouched by a tick — no physics advance, no jump
from the decision policy, and no further −1 penalty; its fitness changes
only by the group `+5` pass bonus. -/
theorem alive_flag_one_way (P : Params) (o : Oracles) (s : EvalState) (i : ℕ)
    (hi : i < s.agents.length) :
    (aliveA (step P o s) i = true → aliveA s i = true) ∧
    (aliveA s i = false →
      (step P o s).agents.getD i agent0 =
        { bird := (s.agents.getD i agent0).bird,
          fitness := (s.agents.getD i agent0).fitness +
            (if addPipeFlag P o s then 5 else 0) }) ∧
    (∀ n m : ℕ, n ≤ m → aliveA (runFor P o s m) i = true → aliveA (runFor P o s n) i = true) := by
  refine ⟨aliveA_step_mono P o s i, step_dead_frozen P o s i hi, ?_⟩
  intro n m hnm
  induction m, hnm using Nat.le_induction with
  | base => exact id
  | succ m hm ih =>
    intro h
    apply ih
    rw [runFor] at h
    split at h
    · exact h
    · exact aliveA_step_mono P o _ i h

/-- C10: throughout every run of the evaluation loop the pipe list is
non-empty, and the lead-obstacle index is 1 only when at least two pipes
exist, so the observation lookup `pipes[pipe_ind]` is always in bounds. -/
theorem pipes_nonempty_inbounds (P : Params) (o : Oracles) (g n : ℕ) :
    (runFor P o (initState P o g) n).pipes ≠ [] ∧
    pipeIndex P (runFor P o (initState P o g) n) <
      (runFor P o (initState P o g) n).pipes.length := by
  obtain ⟨⟨p, hp, _⟩, _⟩ := goodState_runFor P o g n
  have hne : (runFor P o (initState P o g) n).pipes ≠ [] := List.ne_nil_of_mem hp
  refine ⟨hne, ?_⟩
  unfold pipeIndex
  split
  · next hcond => exact hcond.1
  · exact List.length_pos.2 hne

/-! ### Witnesses and counterexamples on concrete runs -/

/-- C1 witness: with the tall-bird geometry `P2` and a policy that never
jumps, the single agent dies at the boundary on tick 3 and its fitness
after 5 ticks is `0.1·3 + 5·score − 1`. -/
theorem eval_fitness_totals_witness :
    fit (runFor P2 O1 (initState P2 O1 1) 5) 0 =
      0.1 * (3 : ℚ) + 5 * ((runFor P2 O1 (initState P2 O1 1) 5).score : ℚ) - 1 :=
  (eval_fitness_totals P2 O1 1 5 3 0 (by norm_num)).2
    (by
      norm_num [boundaryDeathAt, runFor, initState, step, stepParts, movePhase, tickBird,
        obsOf, pipeIndex, aliveBirds, Bird.init, Bird.move, Bird.moveDisp, Bird.jump,
        clampDisp, dispRaw, Pipe.spawn, Pipe.set_height, Pipe.GAP, Pipe.VEL, Pipe.move,
        pipeStep, collideUpd, headX, agent0, pipe0, addPipeFlag, postBonus, gBonus,
        boundaryUpd, keepPipe, newPipeX, WIN_WIDTH, Base.init, Base.move, Base.VEL,
        fit, aliveA, List.foldl, MAX_ROTATION, ROT_VEL, P2, O1])
    (by norm_num)

set_option maxHeartbeats 16000000 in
set_option maxRecDepth 16000 in
/-- C2 counterexample: from the real entry state with two genomes — genome
0 driven by a hover policy, genome 1 never jumping — genome 1 is dead from
tick 22 on (fitness `0.1·22 − 1 = 6/5`), yet when the first pipe is passed
at tick 95 (the score increments) the dead genome's fitness still rises by
the full `+5` bonus, contradicting the claim that dead genomes receive no
bonus. -/
theorem dead_genome_gets_pass_bonus :
    aliveA (runFor P0 O0 (initState P0 O0 2) 94) 1 = false ∧
    (runFor P0 O0 (initState P0 O0 2) 95).score =
      (runFor P0 O0 (initState P0 O0 2) 94).score + 1 ∧
    fit (runFor P0 O0 (initState P0 O0 2) 95) 1 =
      fit (runFor P0 O0 (initState P0 O0 2) 94) 1 + 5 ∧
    fit (runFor P0 O0 (initState P0 O0 2) 94) 1 = 6 / 5 := by
  norm_num [runFor, initState, step, stepParts, movePhase, tickBird, obsOf, pipeIndex,
    aliveBirds, Bird.init, Bird.move, Bird.moveDisp, Bird.jump, clampDisp, dispRaw,
    Pipe.spawn, Pipe.set_height, Pipe.GAP, Pipe.VEL, Pipe.move, pipeStep, collideUpd,
    headX, agent0, pipe0, addPipeFlag, postBonus, gBonus, boundaryUpd, keepPipe,
    newPipeX, WIN_WIDTH, Base.init, Base.move, Base.VEL, fit, aliveA, List.foldl,
    MAX_ROTATION, ROT_VEL, P0, O0]

/-- C2 witness (amended claim): in the state `sW`, whose only genome is
dead and whose pipe crosses the reference x this tick, the pass bonus
still adds exactly 5 to the dead genome's fitness. -/
theorem pass_bonus_all_genomes_witness :
    fit (step P0 O0 sW) 0 = fit sW 0 + 5 :=
  (pass_bonus_all_genomes P0 O0 sW 0 (by norm_num [sW])
    (by
      norm_num [addPipeFlag, stepParts, movePhase, tickBird, obsOf, pipeIndex,
        aliveBirds, Bird.move, Bird.moveDisp, Bird.jump, clampDisp, dispRaw, Pipe.spawn,
        Pipe.set_height, Pipe.GAP, Pipe.VEL, Pipe.move, pipeStep, collideUpd, headX,
        agent0, pipe0, List.foldl, MAX_ROTATION, ROT_VEL, P0, O0, sW, deadBird,
        Base.init])).2.1 rfl

/-- C3 counterexample: with the top pipe sprite 640 units tall (the
standard doubled sprite), the stored top and bottom extents of a spawned
pipe are 790 units apart — not 150 as the claim states. -/
theorem extents_separation_not_gap :
    (Pipe.spawn 640 200 700).bottom - (Pipe.spawn 640 200 700).top = 790 ∧
    ¬((Pipe.spawn 640 200 700).bottom - (Pipe.spawn 640 200 700).top = 150) := by
  norm_num [Pipe.spawn, Pipe.set_height, Pipe.GAP]

/-- C3 witness: the amended statement at sprite height 640, draw 200,
position 700. -/
theorem set_height_spec_witness :
    (Pipe.spawn 640 200 700).height = (200 : ℤ) ∧
    (50 : ℤ) ≤ (Pipe.spawn 640 200 700).height ∧ (Pipe.spawn 640 200 700).height < 350 ∧
    (Pipe.spawn 640 200 700).bottom = ((200 : ℤ) : ℚ) + 150 ∧
    (Pipe.spawn 640 200 700).bottom - (Pipe.spawn 640 200 700).top = 150 + 640 :=
  set_height_spec 640 200 700 ⟨by norm_num, by norm_num⟩

/-- C4 witness: at ticks 6 and 7 after a jump the displacement is already
non-negative and non-decreasing. -/
theorem move_disp_clamped_mono_witness :
    (postJump (Bird.init 230 350) 6).moveDisp ≤ (postJump (Bird.init 230 350) 7).moveDisp :=
  move_disp_clamped_mono.1 (Bird.init 230 350) 6 7 (by norm_num)
    (by rw [postJump_moveDisp]; norm_num [clampDisp, dispRaw])

/-- C6 witness: one executed tick from the two-genome entry state — no
pipe crosses, so the score stays put. -/
theorem score_increment_rule_witness :
    (step P0 O0 (initState P0 O0 1)).score =
      (initState P0 O0 1).score +
        (if (initState P0 O0 1).pipes.any (crossB (refX (initState P0 O0 1))) then 1 else 0) :=
  (score_increment_rule P0 O0).1 (initState P0 O0 1)
    (by norm_num [aliveBirds, initState, Bird.init])

/-- C9 witness: a tick applied to the state `sW` leaves its dead agent's
bird untouched and only adds the group bonus to the fitness. -/
theorem alive_flag_one_way_witness :
    (step P0 O0 sW).agents.getD 0 agent0 =
      { bird := (sW.agents.getD 0 agent0).bird,
        fitness := (sW.agents.getD 0 agent0).fitness +
          (if addPipeFlag P0 O0 sW then 5 else 0) } :=
  (alive_flag_one_way P0 O0 sW 0 (by norm_num [sW])).2.1 rfl

end Flappy
